import Mathlib

/-!
Verification development for the ChefGenius recipe application
(single source file `src/App.tsx`).

The relevant parts of the program are embedded shallowly:

* JavaScript string helpers (`String.prototype.includes`,
  `String.prototype.trim`, `String.prototype.split`) are modelled as
  executable functions on `String` / `List Char`.
* The recipe store operations (saving the current recipe via the heart
  button, manual dish entry, recipe deletion, shopping-list add/remove)
  are modelled as pure functions on lists, mirroring the corresponding
  `onClick` handlers and callbacks in `App.tsx`.
* `generateRecipe`'s response handling (lines 135-174) is modelled as a
  function of the possible response outcomes; the upstream service call
  itself is the external input.
* `speakStep` (lines 200-220) and the cooking-mode overlay (lines
  464-486) are modelled as state transitions on a cooking state record.
* The persistence `useEffect`s (lines 96-109) are modelled over a JSON
  value tree; a stored string is either valid JSON (identified with its
  parse tree) or corrupt.
* `decodeAudioData` (lines 58-66) is modelled over byte lists, with
  exact rational arithmetic standing for the (exactly representable)
  dyadic sample values.
-/

namespace ChefApp

/-! ## JavaScript string primitives -/

/-- Model of JS `String.prototype.includes` restricted to a needle that is a
prefix of the haystack: `listPrefixOf n h` is true iff `n` is a prefix of `h`. -/
def listPrefixOf : List Char → List Char → Bool
  | [], _ => true
  | _ :: _, [] => false
  | a :: as, b :: bs => a == b && listPrefixOf as bs

/-- `listContains needle hay` is true iff `needle` occurs contiguously in
`hay`; this is the character-level content of JS `hay.includes(needle)`. -/
def listContains (needle : List Char) : List Char → Bool
  | [] => needle.isEmpty
  | b :: bs => listPrefixOf needle (b :: bs) || listContains needle bs

/-- Model of JS `s.includes(sub)`. -/
def jsIncludes (s sub : String) : Bool :=
  listContains sub.data s.data

/-- Model of JS `s.trim()`: drop whitespace from both ends. -/
def jsTrim (s : String) : String :=
  ⟨((s.data.dropWhile Char.isWhitespace).reverse.dropWhile Char.isWhitespace).reverse⟩

/-! ## Data model (`App.tsx` lines 28-46) -/

/-- The `Nutrition` interface. -/
structure Nutrition where
  calories : String
  protein : String
  carbs : String
  fat : String
deriving DecidableEq, Repr

/-- The `Recipe` interface. -/
structure Recipe where
  id : String
  title : String
  description : String
  ingredients : List String
  instructions : List String
  prepTime : String
  servings : String
  nutrition : Nutrition
  imageUrl : Option String
  createdAt : Int
deriving DecidableEq, Repr

/-! ## Recipe store operations -/

/-- The heart-button handler (`App.tsx` line 303):
`if (!savedRecipes.find(r => r.title === currentRecipe.title))
 setSavedRecipes([currentRecipe, ...savedRecipes])`. -/
def saveCurrentRecipe (current : Recipe) (saved : List Recipe) : List Recipe :=
  if (saved.find? (fun r => r.title == current.title)).isSome then saved
  else current :: saved

/-- The recipe built by `addManualDish` (`App.tsx` lines 178-188). -/
def manualRecipe (title desc ingredients freshId : String) (now : Int) : Recipe :=
  { id := freshId
    title := title ++ " (by praj)"
    description := (if desc == "" then "A classic homemade dish." else desc) ++ " - Crafted by praj."
    ingredients := (ingredients.splitOn "\n").filter (fun i => jsTrim i != "")
    instructions := ["Step-by-step instructions not provided for manual entry."]
    prepTime := "Manual"
    servings := "N/A"
    nutrition := { calories := "-", protein := "-", carbs := "-", fat := "-" }
    imageUrl := none
    createdAt := now }

/-- `addManualDish` (`App.tsx` lines 176-192): guard on an empty title, then
`setSavedRecipes([newRecipe, ...savedRecipes])`. -/
def addManualDish (title desc ingredients : String) (saved : List Recipe)
    (freshId : String) (now : Int) : List Recipe :=
  if title == "" then saved
  else manualRecipe title desc ingredients freshId now :: saved

/-- The pantry delete button (`App.tsx` line 345):
`setSavedRecipes(s => s.filter(r => r.id !== recipe.id))`. -/
def removeRecipeById (rid : String) (saved : List Recipe) : List Recipe :=
  saved.filter (fun r => r.id != rid)

/-- `addShoppingItem` (`App.tsx` lines 194-198): no-op unless the trimmed
text is non-empty, else append the trimmed text. -/
def addShoppingItem (items : List String) (text : String) : List String :=
  if jsTrim text == "" then items
  else items ++ [jsTrim text]

/-- The shopping-item delete button (`App.tsx` line 382):
`setManualShoppingItems(manualShoppingItems.filter((_, idx) => idx !== i))`. -/
def removeShoppingItem (items : List String) (i : Nat) : List String :=
  (items.enum.filter (fun p => p.1 != i)).map Prod.snd

/-! ## Generation client (`App.tsx` lines 135-174)

The parsed JSON payload is an untyped JS object, so each schema field may
be absent (`undefined`). `generateRecipe` reads only `data.title` before
spreading `data` into the new current-recipe object. -/

/-- The fields of the parsed generation payload, each possibly absent. -/
structure GenData where
  title : Option String
  description : Option String
  prepTime : Option String
  servings : Option String
  nutrition : Option Nutrition
  ingredients : Option (List String)
  instructions : Option (List String)
deriving DecidableEq, Repr

/-- The observable outcomes of the `ai.models.generateContent` call plus
`JSON.parse(response.text || '\x7b\x7d')`: the request may throw, the text
may fail to parse, or it parses to an object with the fields of `GenData`. -/
inductive GenResponse where
  | requestFailure
  | invalidJson
  | parsed (data : GenData)
deriving DecidableEq, Repr

/-- The JS object stored by `setCurrentRecipe(\x7b ...data, title: finalTitle,
id: ..., createdAt: ... \x7d)`: fields other than `title`, `id` and
`createdAt` come from `data` and may be absent. -/
structure GenRecipe where
  id : String
  title : String
  description : Option String
  prepTime : Option String
  servings : Option String
  nutrition : Option Nutrition
  ingredients : Option (List String)
  instructions : Option (List String)
  createdAt : Int
deriving DecidableEq, Repr

/-- The state `generateRecipe` leaves behind: whether the generic
`alert("Error generating recipe.")` fired, the final `isGenerating` flag,
and the final current recipe. -/
structure GenResult where
  alerted : Bool
  isGenerating : Bool
  currentRecipe : Option GenRecipe
deriving DecidableEq, Repr

/-- `App.tsx` line 166: `data.title.includes('by praj') ? data.title :
`...` (by praj)``. -/
def finalizeTitle (t : String) : String :=
  if jsIncludes t "by praj" then t else t ++ " (by praj)"

/-- `generateRecipe`'s handling of the response (`App.tsx` lines 165-173).
`setCurrentRecipe(null)` ran at the start, so on every failure path the
current recipe ends up unset.  A missing `title` makes
`data.title.includes` throw a `TypeError`, which the `catch` turns into
the generic alert; missing fields other than `title` are never checked. -/
def generateRecipe (resp : GenResponse) (freshId : String) (now : Int) : GenResult :=
  match resp with
  | .requestFailure => { alerted := true, isGenerating := false, currentRecipe := none }
  | .invalidJson => { alerted := true, isGenerating := false, currentRecipe := none }
  | .parsed data =>
    match data.title with
    | none => { alerted := true, isGenerating := false, currentRecipe := none }
    | some t =>
      { alerted := false
        isGenerating := false
        currentRecipe := some
          { id := freshId
            title := finalizeTitle t
            description := data.description
            prepTime := data.prepTime
            servings := data.servings
            nutrition := data.nutrition
            ingredients := data.ingredients
            instructions := data.instructions
            createdAt := now } }

/-! ## Cooking mode and narration (`App.tsx` lines 89-93, 200-220, 464-486) -/

/-- The cooking-mode related state hooks: `cookingMode`, `currentStep`,
`isSpeaking`. -/
structure CookState where
  cookingMode : Option Recipe
  currentStep : Nat
  isSpeaking : Bool
deriving DecidableEq, Repr

/-- The initial values of the hooks (`App.tsx` lines 90-92). -/
def initialCookState : CookState :=
  { cookingMode := none, currentStep := 0, isSpeaking := false }

/-- The play button (`App.tsx` line 302): `setCookingMode(currentRecipe)`.
Note that `currentStep` is not touched. -/
def enterCookingMode (s : CookState) (r : Recipe) : CookState :=
  { s with cookingMode := some r }

/-- The exit button (`App.tsx` line 467): `setCookingMode(null)`.
`currentStep` is not reset here either. -/
def exitCookingMode (s : CookState) : CookState :=
  { s with cookingMode := none }

/-- The `disabled` attribute of the previous-step button (`App.tsx` line
477): `currentStep === 0`. -/
def prevDisabled (s : CookState) : Bool :=
  s.currentStep == 0

/-- The `disabled` attribute of the next-step button (`App.tsx` line 479):
`currentStep === cookingMode.instructions.length - 1`, with JS number
arithmetic modelled over `Int`. -/
def nextDisabled (s : CookState) (r : Recipe) : Bool :=
  (s.currentStep : Int) == (r.instructions.length : Int) - 1

/-- Clicking the previous-step button: the button exists only while
cooking mode is open and a disabled button never fires its handler
`setCurrentStep(s => s - 1); setIsSpeaking(false)`. -/
def prevClick (s : CookState) : CookState :=
  match s.cookingMode with
  | none => s
  | some _ =>
    if prevDisabled s then s
    else { s with currentStep := s.currentStep - 1, isSpeaking := false }

/-- Clicking the next-step button: handler
`setCurrentStep(s => s + 1); setIsSpeaking(false)`, guarded by the
`disabled` attribute. -/
def nextClick (s : CookState) : CookState :=
  match s.cookingMode with
  | none => s
  | some r =>
    if nextDisabled s r then s
    else { s with currentStep := s.currentStep + 1, isSpeaking := false }

/-- The observable outcomes of an issued narration request in `speakStep`:
the call may throw, return no inline audio data, or return audio that is
decoded and started. -/
inductive SpeakOutcome where
  | requestFailure
  | noAudio
  | audioStarted
deriving DecidableEq, Repr

/-- `speakStep` (`App.tsx` lines 200-220) as a transition on `CookState`,
also reporting whether a speech request was issued.  The guard
`if (isSpeaking) return` rejects a request while narration is active and
returns without touching any state. -/
def speakStep (s : CookState) (outcome : SpeakOutcome) : CookState × Bool :=
  if s.isSpeaking then (s, false)
  else
    match outcome with
    | .audioStarted => ({ s with isSpeaking := true }, true)
    | .requestFailure => ({ s with isSpeaking := false }, true)
    | .noAudio => ({ s with isSpeaking := false }, true)

/-! ## Persistence (`App.tsx` lines 96-109)

The saved-recipe collection is written with `JSON.stringify` and read back
with `JSON.parse` inside a `try`/`catch` that leaves the initial empty
collection on a parse error.  The store is modelled at the JSON-value
level: a stored string is either valid JSON, identified with its parse
tree, or corrupt, in which case `JSON.parse` throws. -/

/-- A JSON value tree. -/
inductive Json where
  | null
  | bool (b : Bool)
  | num (n : Int)
  | str (s : String)
  | arr (items : List Json)
  | obj (fields : List (String × Json))

/-- Field lookup on a JSON object, as JS property access by name. -/
def Json.getField : Json → String → Option Json
  | .obj fields, k => fields.lookup k
  | _, _ => none

/-- Read a JSON value as a string. -/
def Json.asStr : Json → Option String
  | .str s => some s
  | _ => none

/-- Traverse a list with a fallible reader, failing if any element fails. -/
def mapOption (f : α → Option β) : List α → Option (List β)
  | [] => some []
  | x :: xs =>
    match f x, mapOption f xs with
    | some y, some ys => some (y :: ys)
    | _, _ => none

/-- The JSON tree `JSON.stringify` produces for a `Nutrition` object. -/
def Nutrition.toJson (n : Nutrition) : Json :=
  .obj [("calories", .str n.calories), ("protein", .str n.protein),
        ("carbs", .str n.carbs), ("fat", .str n.fat)]

/-- Read a JSON value back as a `Nutrition` object. -/
def Nutrition.fromJson (j : Json) : Option Nutrition :=
  match j.getField "calories", j.getField "protein", j.getField "carbs", j.getField "fat" with
  | some (.str calories), some (.str protein), some (.str carbs), some (.str fat) =>
    some { calories, protein, carbs, fat }
  | _, _, _, _ => none

/-- The JSON tree `JSON.stringify` produces for a `Recipe` object: all
fields serialized in place, except that an absent optional `imageUrl`
(`undefined` in JS) is dropped entirely. -/
def Recipe.toJson (r : Recipe) : Json :=
  .obj ([("id", .str r.id), ("title", .str r.title),
         ("description", .str r.description),
         ("ingredients", .arr (r.ingredients.map .str)),
         ("instructions", .arr (r.instructions.map .str)),
         ("prepTime", .str r.prepTime), ("servings", .str r.servings),
         ("nutrition", r.nutrition.toJson),
         ("createdAt", .num r.createdAt)] ++
        (match r.imageUrl with
         | some u => [("imageUrl", .str u)]
         | none => []))

/-- Read a parsed JSON value back as a `Recipe`, field by field; an absent
`imageUrl` field stays absent. -/
def Recipe.fromJson (j : Json) : Option Recipe :=
  match j.getField "id", j.getField "title", j.getField "description",
        j.getField "ingredients", j.getField "instructions",
        j.getField "prepTime", j.getField "servings",
        j.getField "nutrition", j.getField "createdAt" with
  | some (.str id), some (.str title), some (.str description),
    some (.arr ingsJson), some (.arr instsJson),
    some (.str prepTime), some (.str servings), some nut, some (.num createdAt) =>
    match mapOption Json.asStr ingsJson, mapOption Json.asStr instsJson, Nutrition.fromJson nut with
    | some ingredients, some instructions, some nutrition =>
      some { id, title, description, ingredients, instructions, prepTime,
             servings, nutrition,
             imageUrl :=
               match j.getField "imageUrl" with
               | some (.str u) => some u
               | _ => none,
             createdAt }
    | _, _, _ => none
  | _, _, _, _, _, _, _, _, _ => none

/-- A string held in `localStorage`: either valid JSON, identified with
its parse tree, or a corrupt string on which `JSON.parse` throws. -/
inductive StoredString where
  | json (j : Json)
  | corrupt (s : String)

/-- `JSON.parse` on a stored string: the parse tree of valid JSON, or a
thrown error (`none`) on a corrupt string. -/
def jsonParse : StoredString → Option Json
  | .json j => some j
  | .corrupt _ => none

/-- The persistence `useEffect` (`App.tsx` lines 103-105):
`localStorage.setItem('chefgenius_recipes_v3', JSON.stringify(savedRecipes))`. -/
def saveRecipesStored (saved : List Recipe) : StoredString :=
  .json (.arr (saved.map Recipe.toJson))

/-- The load `useEffect` (`App.tsx` lines 96-101) for the recipe key:
with no stored value or a `JSON.parse` failure the state keeps its
initial `[]`; otherwise the parsed value becomes the collection
(`none` when the parsed value is not a recipe array at all, a shape the
untyped JS code would accept blindly). -/
def loadRecipes (stored : Option StoredString) : Option (List Recipe) :=
  match stored with
  | none => some []
  | some st =>
    match jsonParse st with
    | none => some []
    | some j =>
      match j with
      | .arr items => mapOption Recipe.fromJson items
      | _ => none

/-! ## Audio decoding (`App.tsx` lines 58-66) -/

/-- Reassemble one little-endian signed 16-bit sample from two bytes, as
the `Int16Array` view does. -/
def toInt16 (lo hi : Nat) : Int :=
  if lo % 256 + 256 * (hi % 256) < 32768 then ((lo % 256 + 256 * (hi % 256) : Nat) : Int)
  else ((lo % 256 + 256 * (hi % 256) : Nat) : Int) - 65536

/-- `new Int16Array(data.buffer)`: consecutive byte pairs become signed
16-bit little-endian samples. -/
def bytesToInt16 : List Nat → List Int
  | lo :: hi :: rest => toInt16 lo hi :: bytesToInt16 rest
  | _ => []

/-- The `AudioBuffer` produced by `ctx.createBuffer(1, n, 24000)` and
filled by the loop; sample values are exact dyadic rationals, which is
also exactly what the JS doubles hold. -/
structure AudioBuffer where
  numberOfChannels : Nat
  sampleRate : Nat
  channelData : List ℚ
deriving DecidableEq, Repr

/-- `decodeAudioData` (`App.tsx` lines 58-66): a mono buffer at 24 kHz
whose samples are `dataInt16[i] / 32768.0`. -/
def decodeAudioData (bytes : List Nat) : AudioBuffer :=
  let dataInt16 := bytesToInt16 bytes
  { numberOfChannels := 1
    sampleRate := 24000
    channelData := dataInt16.map (fun i : Int => (i : ℚ) / 32768) }

/-! ## Concrete sample values used in witnesses and counterexamples -/

/-- A parsed generation payload that carries only a `title` and is
missing every other required field. -/
def titleOnlyGenData : GenData :=
  { title := some "Pasta", description := none, prepTime := none,
    servings := none, nutrition := none, ingredients := none,
    instructions := none }

/-- A concrete in-range cooking state: cooking a one-step recipe at step
index 0. -/
def sampleCookState : CookState :=
  { cookingMode := some (manualRecipe "W" "" "" "iw" 0), currentStep := 0,
    isSpeaking := false }

/-! ## Helper lemmas -/

/-- A needle occurring in `b` also occurs in `a ++ b`. -/
theorem listContains_append_right (a : List Char) {b needle : List Char}
    (h : listContains needle b = true) : listContains needle (a ++ b) = true := by
  induction a with
  | nil => simpa using h
  | cons x xs ih =>
    simp only [List.cons_append, listContains, Bool.or_eq_true]
    exact Or.inr ih

/-- Appending the marker suffix always makes `includes('by praj')` true. -/
theorem jsIncludes_append_marker (t : String) :
    jsIncludes (t ++ " (by praj)") "by praj" = true := by
  unfold jsIncludes
  rw [String.data_append]
  exact listContains_append_right t.data (by decide)

/-- The filter-with-index used by the shopping-item delete button removes
exactly the element at the given position: index-filtering a list
enumerated from `n` erases position `i - n` (and nothing when `i < n`). -/
theorem filterIdx_eq_eraseIdx (l : List String) : ∀ n i : Nat,
    ((List.enumFrom n l).filter (fun p => p.1 != i)).map Prod.snd =
      if i < n then l else l.eraseIdx (i - n) := by
  induction l with
  | nil => intro n i; simp [List.enumFrom]
  | cons a as ih =>
    intro n i
    by_cases hni : n = i
    · subst hni
      have hfalse : (n != n) = false := by simp
      simp only [List.enumFrom, List.filter_cons, hfalse, Bool.false_eq_true,
        if_false, ih (n + 1) n]
      rw [if_pos (Nat.lt_succ_self n), if_neg (lt_irrefl n), Nat.sub_self,
        List.eraseIdx_cons_zero]
    · have htrue : (n != i) = true := by simpa using hni
      simp only [List.enumFrom, List.filter_cons, htrue, if_true, List.map_cons,
        ih (n + 1) i]
      by_cases hlt : i < n
      · rw [if_pos (Nat.lt_succ_of_lt hlt), if_pos hlt]
      · have hgt : n < i := by omega
        rw [if_neg (by omega : ¬ i < n + 1), if_neg hlt,
          show i - n = (i - (n + 1)) + 1 by omega, List.eraseIdx_cons_succ]

/-! ## Claim theorems -/

/-- Claim C9: `addShoppingItem` appends the trimmed input text to the end
of the shopping list and is a no-op for input whose trim is empty;
`removeShoppingItem` removes exactly the element at the given position,
leaving all others in order; adding "Milk" then "Eggs" then removing
index 0 leaves exactly ["Eggs"]. -/
theorem shoppingList_spec :
    (∀ (items : List String) (text : String), jsTrim text ≠ "" →
        addShoppingItem items text = items ++ [jsTrim text])
    ∧ (∀ (items : List String) (text : String), jsTrim text = "" →
        addShoppingItem items text = items)
    ∧ (∀ (items : List String) (i : Nat),
        removeShoppingItem items i = items.eraseIdx i)
    ∧ removeShoppingItem (addShoppingItem (addShoppingItem [] "Milk") "Eggs") 0 = ["Eggs"] := by
  refine ⟨?_, ?_, ?_, ?_⟩
  · intro items text h
    simp [addShoppingItem, h]
  · intro items text h
    simp [addShoppingItem, h]
  · intro items i
    unfold removeShoppingItem
    rw [show items.enum = List.enumFrom 0 items from rfl, filterIdx_eq_eraseIdx]
    simp
  · decide

/-- Witness for `shoppingList_spec`: its hypotheses hold at concrete inputs. -/
theorem shoppingList_spec_witness :
    jsTrim " Milk " ≠ "" ∧ addShoppingItem [] " Milk " = [] ++ [jsTrim " Milk "] :=
  ⟨by decide, shoppingList_spec.1 [] " Milk " (by decide)⟩

/-- Claim C5: a narration request issued while `isSpeaking` is set is
rejected: `speakStep` issues no speech request and leaves the entire
state unchanged. -/
theorem speakStep_rejects_while_speaking (s : CookState) (outcome : SpeakOutcome)
    (h : s.isSpeaking = true) :
    speakStep s outcome = (s, false) := by
  unfold speakStep
  rw [h]
  simp

/-- Witness for `speakStep_rejects_while_speaking` at a concrete state. -/
theorem speakStep_rejects_while_speaking_witness :
    ({ cookingMode := none, currentStep := 0, isSpeaking := true } : CookState).isSpeaking = true
    ∧ speakStep { cookingMode := none, currentStep := 0, isSpeaking := true } .audioStarted =
        ({ cookingMode := none, currentStep := 0, isSpeaking := true }, false) :=
  ⟨rfl, speakStep_rejects_while_speaking _ .audioStarted rfl⟩

/-- Counterexample to claim C1: the manual-dish path performs no
duplicate-title check.  With a pantry already holding a recipe titled
"Lasagna (by praj)", manually entering "Lasagna" adds a second recipe
with exactly that title instead of no-opping. -/
theorem addManualDish_duplicate_counterexample :
    (manualRecipe "Lasagna" "" "" "id1" 1).title =
        (manualRecipe "Lasagna" "" "" "id0" 0).title
    ∧ addManualDish "Lasagna" "" "" [manualRecipe "Lasagna" "" "" "id0" 0] "id1" 1 ≠
        [manualRecipe "Lasagna" "" "" "id0" 0] := by
  constructor
  · rfl
  · decide

/-- Claim C1 (amended): saving the current recipe via the heart button is
a no-op exactly when some saved recipe already has the same title, and
otherwise adds the recipe; manual dish entry (with a non-empty title)
always grows the collection by one, with no duplicate-title check. -/
theorem saveDedup_manualNoDedup (current : Recipe) (saved : List Recipe)
    (title desc ingredients freshId : String) (now : Int) (ht : title ≠ "") :
    ((∃ r ∈ saved, r.title = current.title) → saveCurrentRecipe current saved = saved)
    ∧ ((∀ r ∈ saved, r.title ≠ current.title) →
        saveCurrentRecipe current saved = current :: saved)
    ∧ (addManualDish title desc ingredients saved freshId now).length = saved.length + 1 := by
  refine ⟨?_, ?_, ?_⟩
  · rintro ⟨r, hr, he⟩
    unfold saveCurrentRecipe
    rw [if_pos (List.find?_isSome.mpr ⟨r, hr, by simp [he]⟩)]
  · intro h
    unfold saveCurrentRecipe
    rw [if_neg]
    intro hsome
    obtain ⟨r, hr, he⟩ := List.find?_isSome.mp hsome
    exact h r hr (by simpa using he)
  · simp [addManualDish, ht]

/-- Witness for `saveDedup_manualNoDedup` at concrete inputs. -/
theorem saveDedup_manualNoDedup_witness :
    ("Dal" : String) ≠ ""
    ∧ (addManualDish "Dal" "" "" [] "id0" 0).length = List.length ([] : List Recipe) + 1 :=
  ⟨by decide, (saveDedup_manualNoDedup (manualRecipe "X" "" "" "i" 0) [] "Dal" "" "" "id0" 0
      (by decide)).2.2⟩

/-- Counterexample to claim C4: the heart button prepends the current
recipe, so with one saved recipe the newly saved one comes first, not
last. -/
theorem saveAppends_counterexample :
    saveCurrentRecipe (manualRecipe "B" "" "" "i2" 0) [manualRecipe "A" "" "" "i1" 0] ≠
      [manualRecipe "A" "" "" "i1" 0] ++ [manualRecipe "B" "" "" "i2" 0] := by
  decide

/-- Claim C4 (amended): both add paths prepend the new recipe to the
front of the saved collection; the relative order of previously saved
recipes is preserved and the new entry comes first. -/
theorem savePrepends (current : Recipe) (saved : List Recipe)
    (h : ∀ r ∈ saved, r.title ≠ current.title)
    (title desc ingredients freshId : String) (now : Int) (ht : title ≠ "") :
    saveCurrentRecipe current saved = current :: saved
    ∧ addManualDish title desc ingredients saved freshId now =
        manualRecipe title desc ingredients freshId now :: saved := by
  constructor
  · unfold saveCurrentRecipe
    rw [if_neg]
    intro hsome
    obtain ⟨r, hr, he⟩ := List.find?_isSome.mp hsome
    exact h r hr (by simpa using he)
  · simp [addManualDish, ht]

/-- Witness for `savePrepends` at concrete inputs. -/
theorem savePrepends_witness :
    (∀ r ∈ ([] : List Recipe), r.title ≠ (manualRecipe "B" "" "" "i2" 0).title)
    ∧ ("Dal" : String) ≠ ""
    ∧ saveCurrentRecipe (manualRecipe "B" "" "" "i2" 0) [] = [manualRecipe "B" "" "" "i2" 0] :=
  ⟨by simp, by decide,
    (savePrepends (manualRecipe "B" "" "" "i2" 0) [] (by simp) "Dal" "" "" "id0" 0 (by decide)).1⟩

/-- Counterexample to claim C3: a parsed response carrying only a `title`
(every other required field missing) raises no generation error and sets
a partial current recipe, because only `data.title` is ever inspected. -/
theorem generateRecipe_missingField_counterexample :
    (generateRecipe (.parsed titleOnlyGenData) "id0" 0).alerted = false
    ∧ (generateRecipe (.parsed titleOnlyGenData) "id0" 0).currentRecipe ≠ none := by
  decide

/-- Claim C3 (amended): on a request failure, a JSON parse failure, or a
response missing the `title` field, `generateRecipe` raises the generic
generation error, clears the loading flag and leaves the current recipe
unset; a response that does carry a title is accepted without any
validation of the remaining required fields, producing a (possibly
partial) current recipe. -/
theorem generateRecipe_errorPaths (resp : GenResponse) (freshId : String) (now : Int) :
    ((resp = .requestFailure ∨ resp = .invalidJson ∨
        ∃ d, resp = .parsed d ∧ d.title = none) →
      generateRecipe resp freshId now =
        { alerted := true, isGenerating := false, currentRecipe := none })
    ∧ (∀ d t, resp = .parsed d → d.title = some t →
        generateRecipe resp freshId now =
          { alerted := false, isGenerating := false,
            currentRecipe := some
              { id := freshId, title := finalizeTitle t,
                description := d.description, prepTime := d.prepTime,
                servings := d.servings, nutrition := d.nutrition,
                ingredients := d.ingredients, instructions := d.instructions,
                createdAt := now } }) := by
  constructor
  · rintro (rfl | rfl | ⟨d, rfl, hd⟩)
    · rfl
    · rfl
    · simp [generateRecipe, hd]
  · rintro d t rfl hd
    simp [generateRecipe, hd]

/-- Witness for `generateRecipe_errorPaths`: the request-failure path at
concrete inputs. -/
theorem generateRecipe_errorPaths_witness :
    ((GenResponse.requestFailure = GenResponse.requestFailure ∨
        GenResponse.requestFailure = GenResponse.invalidJson ∨
        ∃ d, GenResponse.requestFailure = GenResponse.parsed d ∧ d.title = none))
    ∧ generateRecipe .requestFailure "id0" 0 =
        { alerted := true, isGenerating := false, currentRecipe := none } :=
  ⟨Or.inl rfl, (generateRecipe_errorPaths .requestFailure "id0" 0).1 (Or.inl rfl)⟩

/-- Claim C2 exhibits a defect: `setCookingMode` never resets
`currentStep`, so after cooking a two-step recipe up to its second step,
exiting, and entering cooking mode for a one-step recipe, the step index
is still 1, which is neither 0 nor within [0, N-1] = [0, 0]. -/
theorem cookingStep_not_reset_bug :
    (enterCookingMode
        (exitCookingMode (nextClick (enterCookingMode initialCookState
          { id := "r2", title := "Two Steps (by praj)", description := "",
            ingredients := [], instructions := ["first", "second"],
            prepTime := "", servings := "",
            nutrition := { calories := "-", protein := "-", carbs := "-", fat := "-" },
            imageUrl := none, createdAt := 0 })))
        { id := "r1", title := "One Step (by praj)", description := "",
          ingredients := [], instructions := ["only"], prepTime := "",
          servings := "",
          nutrition := { calories := "-", protein := "-", carbs := "-", fat := "-" },
          imageUrl := none, createdAt := 0 }).currentStep = 1
    ∧ ¬ (enterCookingMode
        (exitCookingMode (nextClick (enterCookingMode initialCookState
          { id := "r2", title := "Two Steps (by praj)", description := "",
            ingredients := [], instructions := ["first", "second"],
            prepTime := "", servings := "",
            nutrition := { calories := "-", protein := "-", carbs := "-", fat := "-" },
            imageUrl := none, createdAt := 0 })))
        { id := "r1", title := "One Step (by praj)", description := "",
          ingredients := [], instructions := ["only"], prepTime := "",
          servings := "",
          nutrition := { calories := "-", protein := "-", carbs := "-", fat := "-" },
          imageUrl := none, createdAt := 0 }).currentStep ≤
        (["only"] : List String).length - 1 := by
  decide

/-- Claim C8: while the step index is in range for the recipe being
cooked, the next button is enabled exactly when `i < N-1` and clicking it
increments the index, the previous button is enabled exactly when
`i > 0` and clicking it decrements the index, and at the boundary
positions the disabled buttons make the clicks no-ops. -/
theorem cookingButtons_spec (s : CookState) (r : Recipe)
    (hmode : s.cookingMode = some r) (hN : 1 ≤ r.instructions.length)
    (hi : s.currentStep ≤ r.instructions.length - 1) :
    (nextDisabled s r = false ↔ s.currentStep < r.instructions.length - 1)
    ∧ (prevDisabled s = false ↔ 0 < s.currentStep)
    ∧ (s.currentStep < r.instructions.length - 1 →
        nextClick s = { s with currentStep := s.currentStep + 1, isSpeaking := false })
    ∧ (0 < s.currentStep →
        prevClick s = { s with currentStep := s.currentStep - 1, isSpeaking := false })
    ∧ (s.currentStep = r.instructions.length - 1 → nextClick s = s)
    ∧ (s.currentStep = 0 → prevClick s = s) := by
  have hnext : nextDisabled s r = false ↔ s.currentStep < r.instructions.length - 1 := by
    unfold nextDisabled
    rw [beq_eq_false_iff_ne]
    omega
  have hprev : prevDisabled s = false ↔ 0 < s.currentStep := by
    unfold prevDisabled
    rw [beq_eq_false_iff_ne]
    omega
  refine ⟨hnext, hprev, ?_, ?_, ?_, ?_⟩
  · intro hlt
    simp [nextClick, hmode, hnext.mpr hlt]
  · intro hpos
    simp [prevClick, hmode, hprev.mpr hpos]
  · intro hlast
    have hdis : nextDisabled s r = true := by
      unfold nextDisabled
      rw [beq_iff_eq]
      omega
    simp [nextClick, hmode, hdis]
  · intro hzero
    have hdis : prevDisabled s = true := by
      unfold prevDisabled
      rw [beq_iff_eq]
      exact hzero
    simp [prevClick, hmode, hdis]

/-- Witness for `cookingButtons_spec` at a concrete in-range state. -/
theorem cookingButtons_spec_witness :
    sampleCookState.cookingMode = some (manualRecipe "W" "" "" "iw" 0)
    ∧ 1 ≤ (manualRecipe "W" "" "" "iw" 0).instructions.length
    ∧ sampleCookState.currentStep ≤ (manualRecipe "W" "" "" "iw" 0).instructions.length - 1
    ∧ (sampleCookState.currentStep = 0 → prevClick sampleCookState = sampleCookState) :=
  ⟨rfl, by decide, by decide,
    (cookingButtons_spec sampleCookState (manualRecipe "W" "" "" "iw" 0) rfl (by decide)
      (by decide)).2.2.2.2.2⟩

/-- Claim C10: every recipe the application creates carries the
"by praj" marker in its title — `generateRecipe` appends " (by praj)"
unless the generated title already contains "by praj", `addManualDish`
appends it unconditionally — and no store operation produces a recipe
that was not either already stored or the one being added, so no title
is ever altered. -/
theorem prajMarker_invariant :
    (∀ t, jsIncludes (finalizeTitle t) "by praj" = true)
    ∧ (∀ title desc ingredients freshId now,
        jsIncludes (manualRecipe title desc ingredients freshId now).title "by praj" = true)
    ∧ (∀ current saved r, r ∈ saveCurrentRecipe current saved → r = current ∨ r ∈ saved)
    ∧ (∀ title desc ingredients saved freshId now r,
        r ∈ addManualDish title desc ingredients saved freshId now →
          r = manualRecipe title desc ingredients freshId now ∨ r ∈ saved)
    ∧ (∀ rid saved r, r ∈ removeRecipeById rid saved → r ∈ saved) := by
  refine ⟨?_, ?_, ?_, ?_, ?_⟩
  · intro t
    unfold finalizeTitle
    split
    · assumption
    · exact jsIncludes_append_marker t
  · intro title desc ingredients freshId now
    exact jsIncludes_append_marker title
  · intro current saved r hr
    unfold saveCurrentRecipe at hr
    split at hr
    · exact Or.inr hr
    · simpa using hr
  · intro title desc ingredients saved freshId now r hr
    unfold addManualDish at hr
    split at hr
    · exact Or.inr hr
    · simpa using hr
  · intro rid saved r hr
    exact List.mem_of_mem_filter hr

/-- Witness for `prajMarker_invariant`: the store-membership part at a
concrete saved collection. -/
theorem prajMarker_invariant_witness :
    (manualRecipe "A" "" "" "i" 0) ∈ saveCurrentRecipe (manualRecipe "A" "" "" "i" 0) []
    ∧ ((manualRecipe "A" "" "" "i" 0) = (manualRecipe "A" "" "" "i" 0) ∨
        (manualRecipe "A" "" "" "i" 0) ∈ ([] : List Recipe)) :=
  have hmem : (manualRecipe "A" "" "" "i" 0) ∈
      saveCurrentRecipe (manualRecipe "A" "" "" "i" 0) [] := by
    show (manualRecipe "A" "" "" "i" 0) ∈ [manualRecipe "A" "" "" "i" 0]
    exact List.mem_singleton_self _
  ⟨hmem, prajMarker_invariant.2.2.1 _ _ _ hmem⟩

/-- A list of JSON strings maps back to the underlying strings. -/
theorem mapOption_asStr_map_str (xs : List String) :
    mapOption Json.asStr (xs.map Json.str) = some xs := by
  induction xs with
  | nil => rfl
  | cons x xs ih => simp [mapOption, Json.asStr, ih]

/-- `Nutrition` decoding inverts encoding. -/
theorem nutrition_fromJson_toJson (n : Nutrition) :
    Nutrition.fromJson n.toJson = some n := rfl

/-- `Recipe` decoding inverts encoding. -/
theorem recipe_fromJson_toJson (r : Recipe) :
    Recipe.fromJson r.toJson = some r := by
  obtain ⟨id, title, description, ingredients, instructions, prepTime,
    servings, nutrition, imageUrl, createdAt⟩ := r
  cases imageUrl <;>
    simp [Recipe.toJson, Recipe.fromJson, Json.getField, List.lookup,
      mapOption_asStr_map_str, nutrition_fromJson_toJson]

/-- Claim C6: persisting the saved-recipe collection and reloading it
yields an equal collection (order and content preserved), and a corrupt
stored string (on which `JSON.parse` throws) loads as the empty
collection with the exception swallowed. -/
theorem persistence_roundtrip :
    (∀ saved : List Recipe, loadRecipes (some (saveRecipesStored saved)) = some saved)
    ∧ (∀ s : String, loadRecipes (some (.corrupt s)) = some []) := by
  constructor
  · intro saved
    show mapOption Recipe.fromJson (saved.map Recipe.toJson) = some saved
    induction saved with
    | nil => rfl
    | cons r rs ih => simp [mapOption, recipe_fromJson_toJson, ih]
  · intro s
    rfl

/-- Every reassembled 16-bit sample lies in the signed 16-bit range. -/
theorem toInt16_bounds (lo hi : Nat) :
    -32768 ≤ toInt16 lo hi ∧ toInt16 lo hi ≤ 32767 := by
  have h1 : lo % 256 < 256 := Nat.mod_lt _ (by norm_num)
  have h2 : hi % 256 < 256 := Nat.mod_lt _ (by norm_num)
  unfold toInt16
  split <;> omega

/-- The `Int16Array` view holds one sample per byte pair. -/
theorem bytesToInt16_length : ∀ bytes : List Nat,
    (bytesToInt16 bytes).length = bytes.length / 2
  | [] => by simp [show bytesToInt16 [] = [] from rfl]
  | [x] => by simp [show bytesToInt16 [x] = [] from rfl]
  | _ :: _ :: rest => by
    have ih := bytesToInt16_length rest
    simp only [bytesToInt16, List.length_cons, ih]
    omega

/-- Every sample in the `Int16Array` view is the reassembly of some byte
pair, hence within the signed 16-bit range. -/
theorem bytesToInt16_mem_bounds : ∀ (bytes : List Nat), ∀ k ∈ bytesToInt16 bytes,
    -32768 ≤ k ∧ k ≤ 32767
  | [], k, h => by
    have h' : k ∈ ([] : List Int) := h
    simp at h'
  | [x], k, h => by
    have h' : k ∈ ([] : List Int) := h
    simp at h'
  | lo :: hi :: rest, k, h => by
    have h' : k = toInt16 lo hi ∨ k ∈ bytesToInt16 rest := by
      have hc : k ∈ toInt16 lo hi :: bytesToInt16 rest := h
      simpa using hc
    rcases h' with h' | h'
    · subst h'
      exact toInt16_bounds lo hi
    · exact bytesToInt16_mem_bounds rest k h'

/-- The sample at index `j` of the `Int16Array` view is the little-endian
reassembly of bytes `2*j` and `2*j + 1`. -/
theorem bytesToInt16_get? : ∀ (bytes : List Nat) (j : Nat),
    2 * j + 1 < bytes.length →
      (bytesToInt16 bytes).get? j =
        some (toInt16 (bytes.getD (2 * j) 0) (bytes.getD (2 * j + 1) 0))
  | [], j, h => by simp at h
  | [x], j, h => by
    simp at h
  | lo :: hi :: rest, 0, h => by simp [bytesToInt16]
  | lo :: hi :: rest, j + 1, h => by
    have hr : 2 * j + 1 < rest.length := by
      simp at h
      omega
    have ih := bytesToInt16_get? rest j hr
    rw [show 2 * (j + 1) = 2 * j + 1 + 1 by omega]
    simp only [bytesToInt16, List.get?_cons_succ, List.getD_cons_succ]
    exact ih

/-- Claim C7: `decodeAudioData` produces a mono buffer at 24 kHz whose
length is the sample count of the input byte stream, whose sample at
index `j` is the signed little-endian 16-bit integer at byte offset
`2*j` divided by 32768, and whose every sample lies in [-1, 1]. -/
theorem decodeAudioData_spec (bytes : List Nat) (hlen : bytes.length % 2 = 0) :
    (decodeAudioData bytes).numberOfChannels = 1
    ∧ (decodeAudioData bytes).sampleRate = 24000
    ∧ (decodeAudioData bytes).channelData.length = bytes.length / 2
    ∧ (∀ j : Nat, 2 * j + 1 < bytes.length →
        (decodeAudioData bytes).channelData.get? j =
          some ((toInt16 (bytes.getD (2 * j) 0) (bytes.getD (2 * j + 1) 0) : ℚ) / 32768))
    ∧ ∀ x ∈ (decodeAudioData bytes).channelData, -1 ≤ x ∧ x ≤ 1 := by
  refine ⟨rfl, rfl, ?_, ?_, ?_⟩
  · show ((bytesToInt16 bytes).map (fun i : Int => (i : ℚ) / 32768)).length = bytes.length / 2
    rw [List.length_map, bytesToInt16_length]
  · intro j hj
    show ((bytesToInt16 bytes).map (fun i : Int => (i : ℚ) / 32768)).get? j =
      some ((toInt16 (bytes.getD (2 * j) 0) (bytes.getD (2 * j + 1) 0) : ℚ) / 32768)
    rw [List.get?_map, bytesToInt16_get? bytes j hj]
    rfl
  · intro x hx
    have hx' : x ∈ (bytesToInt16 bytes).map (fun i : Int => (i : ℚ) / 32768) := hx
    rw [List.mem_map] at hx'
    obtain ⟨k, hk, rfl⟩ := hx'
    obtain ⟨hlo, hhi⟩ := bytesToInt16_mem_bounds bytes k hk
    have hloQ : (-32768 : ℚ) ≤ (k : ℚ) := by exact_mod_cast hlo
    have hhiQ : (k : ℚ) ≤ 32767 := by exact_mod_cast hhi
    constructor
    · rw [le_div_iff₀ (by norm_num : (0:ℚ) < 32768)]
      linarith
    · rw [div_le_one (by norm_num : (0:ℚ) < 32768)]
      linarith

/-- Witness for `decodeAudioData_spec` on a concrete two-byte stream
holding the sample -32768, which decodes to the sample value -1. -/
theorem decodeAudioData_spec_witness :
    ([0, 128] : List Nat).length % 2 = 0
    ∧ ∀ x ∈ (decodeAudioData [0, 128]).channelData, -1 ≤ x ∧ x ≤ 1 :=
  ⟨rfl, (decodeAudioData_spec [0, 128] rfl).2.2.2.2⟩

end ChefApp
